import Mathlib

/-!
Verification of the AtCore command-pipeline specification against the
repository sources.  The Marlin firmware dialect
(`src/plugins/marlinplugin.cpp`) is embedded shallowly: `QString` values
become `String`, `QStringList` becomes `List String`, byte arrays become
`List Char`, and temperatures become exact decimal values.  An out-of-bounds
`QStringList::operator[]` access (a Qt assertion failure / undefined
behaviour) is modelled by `Option`: `none` means the call does not complete.
-/

namespace AtCoreSpec

/-! ## Qt primitives used by the plugin -/

/-- Value of a decimal digit character. -/
def digitVal (c : Char) : Nat := c.toNat - 48

/-- Natural number denoted by a list of decimal digit characters. -/
def digitsToNat (l : List Char) : Nat := l.foldl (fun acc c => acc * 10 + digitVal c) 0

/-- Exact value of a decimal floating-point literal: the denoted number is
`mant / 10 ^ fracDigits`.  Using an exact decimal representation instead of
IEEE floats keeps the embedding faithful on every literal the protocol
carries while staying kernel-computable. -/
structure DecVal where
  mant : Int
  fracDigits : Nat
deriving DecidableEq

/-- The rational number a `DecVal` denotes. -/
def DecVal.toRat (x : DecVal) : ℚ := (x.mant : ℚ) / 10 ^ x.fracDigits

/-- Parse an unsigned decimal literal (digits, optionally a point and more
digits); the whole input must be consumed and at least one digit present,
matching what `QString::toFloat` accepts on the plugin's token shapes. -/
def parseUnsignedDec (l : List Char) : Option DecVal :=
  let ip := l.takeWhile (fun c => c.isDigit)
  let rest := l.dropWhile (fun c => c.isDigit)
  match rest with
  | [] => if ip.isEmpty then none else some ⟨digitsToNat ip, 0⟩
  | '.' :: t =>
    let fp := t.takeWhile (fun c => c.isDigit)
    let rest2 := t.dropWhile (fun c => c.isDigit)
    if rest2.isEmpty then
      if ip.isEmpty && fp.isEmpty then none
      else some ⟨digitsToNat ip * 10 ^ fp.length + digitsToNat fp, fp.length⟩
    else none
  | _ => none

/-- Parse an optionally signed decimal literal. -/
def parseSignedDec (l : List Char) : Option DecVal :=
  match l with
  | '-' :: t => (parseUnsignedDec t).map (fun q => ⟨-q.mant, q.fracDigits⟩)
  | '+' :: t => parseUnsignedDec t
  | t => parseUnsignedDec t

/-- `QString::toFloat` with a null `ok` argument: the parsed value, or `0.0`
when the conversion fails. -/
def toFloatV (s : String) : DecVal := (parseSignedDec s.toList).getD ⟨0, 0⟩

/-- Split a character list on the space character, keeping empty parts
(`QString::split(QChar(' '))` with the default `KeepEmptyParts`). -/
def splitChars : List Char → List (List Char)
  | [] => [[]]
  | c :: t =>
    if c = ' ' then [] :: splitChars t
    else
      match splitChars t with
      | [] => [[c]]
      | h :: r => (c :: h) :: r

/-- `QString::split(QChar::fromLatin1(' '))`. -/
def qsplit (s : String) : List String := (splitChars s.toList).map String.mk

/-- `QString::mid(pos)`: the suffix starting at `pos` (empty when `pos` is
past the end). -/
def qmid (s : String) (pos : Nat) : String := String.mk (s.toList.drop pos)

/-- Does `hay` start with `needle`? -/
def startsWithChars : List Char → List Char → Bool
  | [], _ => true
  | _ :: _, [] => false
  | a :: as, b :: bs => a = b && startsWithChars as bs

/-- Substring containment on character lists. -/
def containsChars (needle : List Char) : List Char → Bool
  | [] => needle.isEmpty
  | c :: t => startsWithChars needle (c :: t) || containsChars needle t

/-- `QString::contains(needle)`. -/
def qcontains (hay needle : String) : Bool := containsChars needle.toList hay.toList

/-- `QString::toLocal8Bit()`: the line's native byte encoding, modelled as its
character list. -/
def toLocal8Bit (s : String) : List Char := s.toList

/-! ## MarlinPlugin (src/plugins/marlinplugin.cpp) -/

/-- `MarlinPlugin::_ok`. -/
def okStr : String := "ok"

/-- `MarlinPlugin::_wait`. -/
def waitStr : String := "wait"

/-- `MarlinPlugin::_extruderTemp`. -/
def extruderTempStr : String := "T:"

/-- `MarlinPlugin::_bedTemp`. -/
def bedTempStr : String := "B:"

/-- The mutable temperature record held by the plugin
(`printerStatus` fields assigned in `MarlinPlugin::extractTemp`). -/
structure PrinterStatus where
  extruderTemp : DecVal
  extruderTargetTemp : DecVal
  bedTemp : DecVal
  bedTargetTemp : DecVal
deriving DecidableEq

/-- `MarlinPlugin::extractTemp`: split the message on spaces, read fields
0–3 at fixed positions, store the four temperatures, and emit
`printerStatusChanged` once.  The result pairs the new status with the
number of emissions; `none` models the out-of-bounds `QStringList` access
that occurs when the split has fewer than four fields. -/
def extractTemp (lastMessage : String) (printerStatus : PrinterStatus) :
    Option (PrinterStatus × Nat) :=
  match (qsplit lastMessage)[0]?, (qsplit lastMessage)[1]?,
        (qsplit lastMessage)[2]?, (qsplit lastMessage)[3]? with
  | some f0, some f1, some f2, some f3 =>
      some ({ printerStatus with
                extruderTemp := toFloatV (qmid f0 2),
                extruderTargetTemp := toFloatV (qmid f1 1),
                bedTemp := toFloatV (qmid f2 2),
                bedTargetTemp := toFloatV (qmid f3 1) }, 1)
  | _, _, _, _ => none

/-- `MarlinPlugin::validateCommand`: on a message containing `T:` or `B:`,
extract temperatures (and return `false`); otherwise return `true` exactly
when the message contains `ok` or `wait`.  The result triples the returned
`bool` with the status after the call and the number of
`printerStatusChanged` emissions. -/
def validateCommand (lastMessage : String) (printerStatus : PrinterStatus) :
    Option (Bool × PrinterStatus × Nat) :=
  if qcontains lastMessage extruderTempStr || qcontains lastMessage bedTempStr then
    match extractTemp lastMessage printerStatus with
    | some (ps, n) => some (false, ps, n)
    | none => none
  else if qcontains lastMessage okStr || qcontains lastMessage waitStr then
    some (true, printerStatus, 0)
  else
    some (false, printerStatus, 0)

/-- `MarlinPlugin::translate`: `command.toLocal8Bit()`. -/
def translate (command : String) : List Char := toLocal8Bit command

/-- `MarlinPlugin::readyForNextCommand`: delegates to `validateCommand`. -/
def readyForNextCommand (lastMessage : String) (printerStatus : PrinterStatus) :
    Option (Bool × PrinterStatus × Nat) :=
  validateCommand lastMessage printerStatus

/-! ## Scheduler (AtCore)

`src/atcore.h` declares `AtCore::processQueue`, `AtCore::pushCommand` and
`AtCore::emergencyStop`, but their implementation file is not among the
sources, so the scheduler is modelled from the specification. -/

/-- Modelled from the spec: the scheduler state of an `AtCore` session
(the bodies of `AtCore::processQueue`, `AtCore::pushCommand` and
`AtCore::emergencyStop` are missing from the sources; modelled from the
spec, Command Queue, Scheduler / State Machine and Testable Properties
sections).  `queue` is the pending command queue, `inFlight` the lines
written to the transport but not yet acknowledged, `written` the log of all
transport writes in order, and `accepting` whether the session still
accepts client commands. -/
structure SchedState where
  queue : List String
  inFlight : List String
  written : List String
  accepting : Bool
deriving DecidableEq

/-- Modelled from the spec: the events driving the scheduler — a command
tick, an acknowledgement-class inbound reply, a client `pushCommand`, and
`emergencyStop`. -/
inductive SchedEvent where
  | tick
  | ack
  | push (line : String)
  | emergency
deriving DecidableEq

/-- Modelled from the spec: scheduler state at the start of a session. -/
def schedInit : SchedState := ⟨[], [], [], true⟩

/-- Modelled from the spec: one scheduler transition.  A command tick
dequeues and writes the queue head only when no line is in flight; an
acknowledgement clears the in-flight slot and is the only event doing so; a
`push` appends a command while the session accepts commands;
`emergencyStop` discards the queue, inserts `M112` at the front and stops
accepting further commands. -/
def schedStep (s : SchedState) : SchedEvent → SchedState
  | SchedEvent.tick =>
    if s.inFlight.isEmpty then
      match s.queue with
      | [] => s
      | c :: rest => ⟨rest, [c], s.written ++ [c], s.accepting⟩
    else s
  | SchedEvent.ack => ⟨s.queue, [], s.written, s.accepting⟩
  | SchedEvent.push c =>
    if s.accepting then ⟨s.queue ++ [c], s.inFlight, s.written, s.accepting⟩ else s
  | SchedEvent.emergency => ⟨["M112"], s.inFlight, s.written, false⟩

/-- Modelled from the spec: run the scheduler over a sequence of events. -/
def schedRun (s : SchedState) : List SchedEvent → SchedState
  | [] => s
  | e :: evs => schedRun (schedStep s e) evs

/-- Modelled from the spec: the on-wire form the spec's encode contract
describes — the native encoding of the line plus a single newline
terminator.  Kept separate from `translate`, which embeds the source, so
the two can be compared. -/
def encodeSpecForm (command : String) : List Char := toLocal8Bit command ++ ['\n']

/-- After `emergencyStop` was observed, either nothing has been written
since (and `M112` sits alone in the queue of a non-accepting session), or
position `base.length` of the write log holds `M112`. -/
def m112Pending (base : List String) (s : SchedState) : Prop :=
  (s.written = base ∧ s.queue = ["M112"] ∧ s.accepting = false) ∨
  s.written[base.length]? = some "M112"

/-! ## Helper lemmas -/

/-- `extractTemp` overwrites every field of the status record, so its result
does not depend on the incoming status. -/
theorem extractTemp_status_irrel (m : String) (ps1 ps2 : PrinterStatus) :
    extractTemp m ps1 = extractTemp m ps2 := by
  cases ps1
  cases ps2
  rfl

/-- A scheduler step keeps the in-flight slot at no more than one line. -/
theorem schedStep_inFlight_le {s : SchedState} (e : SchedEvent)
    (h : s.inFlight.length ≤ 1) : (schedStep s e).inFlight.length ≤ 1 := by
  obtain ⟨q, fl, w, acc⟩ := s
  cases e with
  | tick =>
    cases fl with
    | nil => cases q <;> simp [schedStep]
    | cons a t => simpa [schedStep] using h
  | ack => simp [schedStep]
  | push c => cases acc <;> simpa [schedStep] using h
  | emergency => simpa [schedStep] using h

/-- Running the scheduler preserves the in-flight bound. -/
theorem schedRun_inFlight_le (evs : List SchedEvent) (s : SchedState)
    (h : s.inFlight.length ≤ 1) : (schedRun s evs).inFlight.length ≤ 1 := by
  induction evs generalizing s with
  | nil => exact h
  | cons e evs ih => exact ih _ (schedStep_inFlight_le e h)

/-- A scheduler step only ever appends to the write log. -/
theorem schedStep_written_extends (s : SchedState) (e : SchedEvent) :
    ∃ t, (schedStep s e).written = s.written ++ t := by
  obtain ⟨q, fl, w, acc⟩ := s
  cases e with
  | tick =>
    cases fl with
    | nil =>
      cases q with
      | nil => exact ⟨[], by simp [schedStep]⟩
      | cons c rest => exact ⟨[c], by simp [schedStep]⟩
    | cons a t => exact ⟨[], by simp [schedStep]⟩
  | ack => exact ⟨[], by simp [schedStep]⟩
  | push c => cases acc <;> exact ⟨[], by simp [schedStep]⟩
  | emergency => exact ⟨[], by simp [schedStep]⟩

/-- The `m112Pending` invariant is preserved by every scheduler event. -/
theorem m112Pending_step {base : List String} {s : SchedState} (e : SchedEvent)
    (h : m112Pending base s) : m112Pending base (schedStep s e) := by
  cases h with
  | inl h =>
    obtain ⟨hw, hq, ha⟩ := h
    obtain ⟨q, fl, w, acc⟩ := s
    simp only at hw hq ha
    subst hw hq ha
    cases e with
    | tick =>
      cases fl with
      | nil =>
        right
        simp [schedStep]
      | cons a t => exact Or.inl ⟨rfl, rfl, rfl⟩
    | ack => exact Or.inl ⟨rfl, rfl, rfl⟩
    | push c => exact Or.inl ⟨by simp [schedStep], by simp [schedStep], by simp [schedStep]⟩
    | emergency => exact Or.inl ⟨rfl, rfl, rfl⟩
  | inr h =>
    obtain ⟨t, ht⟩ := schedStep_written_extends s e
    right
    rw [ht]
    have hlt : base.length < s.written.length := by
      by_contra hle
      push_neg at hle
      rw [List.getElem?_eq_none hle] at h
      exact Option.noConfusion h
    rw [List.getElem?_append_left hlt]
    exact h

/-- The `m112Pending` invariant is preserved by whole runs. -/
theorem m112Pending_run {base : List String} {s : SchedState} (evs : List SchedEvent)
    (h : m112Pending base s) : m112Pending base (schedRun s evs) := by
  induction evs generalizing s with
  | nil => exact h
  | cons e evs ih => exact ih (m112Pending_step e h)

/-! ## Claim theorems -/

/-- Claim C1 (counterexample): the reply `ok T:185.4 /185.0 B:60.5 /60.0`
contains the token `ok` and a temperature token, yet
`readyForNextCommand` returns `false` for it — a reply carrying `T:` or
`B:` is never classified acknowledgement-class, contrary to the claim's
"including when the line also contains a temperature token". -/
theorem marlin_ok_temp_line_not_ready :
    qcontains "ok T:185.4 /185.0 B:60.5 /60.0" okStr = true ∧
    readyForNextCommand "ok T:185.4 /185.0 B:60.5 /60.0" ⟨⟨0,0⟩, ⟨0,0⟩, ⟨0,0⟩, ⟨0,0⟩⟩ =
      some (false, ⟨⟨0,0⟩, ⟨0,0⟩, ⟨850,1⟩, ⟨0,0⟩⟩, 1) := by decide

/-- Claim C1 (amended): every reply that contains the token `ok` or `wait`
and contains neither `T:` nor `B:` is classified acknowledgement-class:
`readyForNextCommand` (via `validateCommand`) returns `true` for it. -/
theorem marlin_ack_requires_no_temp_token (m : String) (ps : PrinterStatus)
    (hok : qcontains m okStr = true ∨ qcontains m waitStr = true)
    (hT : qcontains m extruderTempStr = false)
    (hB : qcontains m bedTempStr = false) :
    readyForNextCommand m ps = some (true, ps, 0) := by
  unfold readyForNextCommand validateCommand
  rw [hT, hB]
  cases hok with
  | inl h => simp [h]
  | inr h => simp [h]

/-- Claim C1 (witness): the plain `ok` reply is acknowledgement-class. -/
theorem marlin_ack_requires_no_temp_token_w :
    readyForNextCommand "ok" ⟨⟨0,0⟩, ⟨0,0⟩, ⟨0,0⟩, ⟨0,0⟩⟩ =
      some (true, ⟨⟨0,0⟩, ⟨0,0⟩, ⟨0,0⟩, ⟨0,0⟩⟩, 0) :=
  marlin_ack_requires_no_temp_token "ok" ⟨⟨0,0⟩, ⟨0,0⟩, ⟨0,0⟩, ⟨0,0⟩⟩
    (Or.inl (by decide)) (by decide) (by decide)

/-- Claim C2: in every session run from the initial state, the number of
lines written to the transport but not yet acknowledged is 0 or 1, and a
scheduler step either writes nothing or — only with an empty in-flight
slot — dequeues and writes exactly the head of the queue. -/
theorem sched_one_line_inflight :
    (∀ evs : List SchedEvent, ((schedRun schedInit evs).inFlight).length ≤ 1) ∧
    (∀ (s : SchedState) (e : SchedEvent),
        (schedStep s e).written = s.written ∨
        ((schedStep s e).written = s.written ++ s.queue.take 1 ∧ s.inFlight = [])) := by
  constructor
  · intro evs
    exact schedRun_inFlight_le evs schedInit (by simp [schedInit])
  · intro s e
    obtain ⟨q, fl, w, acc⟩ := s
    cases e with
    | tick =>
      cases fl with
      | nil =>
        cases q with
        | nil => exact Or.inl rfl
        | cons c rest => exact Or.inr ⟨by simp [schedStep], rfl⟩
      | cons a t => exact Or.inl (by simp [schedStep])
    | ack => exact Or.inl rfl
    | push c => cases acc <;> exact Or.inl (by simp [schedStep])
    | emergency => exact Or.inl rfl

/-- Claim C3: evaluating `extractTemp` at the specification's own fixture
line `ok T:185.4 /185.0 B:60.5 /60.0` (the very example in the source
comment) stores `{0, 0, 85.0, 0}`, not `{185.4, 185.0, 60.5, 60.0}`: the
leading `ok` token shifts the fixed field indices 0–3.  Only the
unprefixed line yields the documented values. -/
theorem marlin_temp_parse_ok_prefix_shifted :
    extractTemp "ok T:185.4 /185.0 B:60.5 /60.0" ⟨⟨0,0⟩, ⟨0,0⟩, ⟨0,0⟩, ⟨0,0⟩⟩ =
      some (⟨⟨0,0⟩, ⟨0,0⟩, ⟨850,1⟩, ⟨0,0⟩⟩, 1) ∧
    extractTemp "T:185.4 /185.0 B:60.5 /60.0" ⟨⟨0,0⟩, ⟨0,0⟩, ⟨0,0⟩, ⟨0,0⟩⟩ =
      some (⟨⟨1854,1⟩, ⟨1850,1⟩, ⟨605,1⟩, ⟨600,1⟩⟩, 1) := by decide

/-- Claim C4: the malformed temperature reply `T:185.4` (one field instead
of four) contains the token `T:`, and its classification does not complete:
`extractTemp` indexes fields 1–3 of a one-element split out of bounds, so
`validateCommand` aborts instead of degrading the line to an ignored
reply. -/
theorem marlin_short_temp_line_aborts :
    qcontains "T:185.4" extruderTempStr = true ∧
    validateCommand "T:185.4" ⟨⟨0,0⟩, ⟨0,0⟩, ⟨0,0⟩, ⟨0,0⟩⟩ = none := by decide

/-- Claim C5 (counterexample): the reply `wait` contains no `ok`, yet
`readyForNextCommand` returns `true` for it — a `wait` reply does permit
the next dequeue, contrary to the claim. -/
theorem marlin_wait_line_permits_next :
    qcontains "wait" okStr = false ∧
    readyForNextCommand "wait" ⟨⟨0,0⟩, ⟨0,0⟩, ⟨0,0⟩, ⟨0,0⟩⟩ =
      some (true, ⟨⟨0,0⟩, ⟨0,0⟩, ⟨0,0⟩, ⟨0,0⟩⟩, 0) := by decide

/-- Claim C5 (amended): a reply containing the token `wait` (and no
temperature token) is treated exactly like an acknowledgement:
`readyForNextCommand` returns `true`, so it does clear the way for the
next command; the dialect does not distinguish `wait` from `ok`. -/
theorem marlin_wait_treated_as_ack (m : String) (ps : PrinterStatus)
    (hw : qcontains m waitStr = true)
    (hT : qcontains m extruderTempStr = false)
    (hB : qcontains m bedTempStr = false) :
    readyForNextCommand m ps = some (true, ps, 0) := by
  unfold readyForNextCommand validateCommand
  rw [hT, hB]
  simp [hw]

/-- Claim C5 (witness): the plain `wait` reply is ready-for-next. -/
theorem marlin_wait_treated_as_ack_w :
    readyForNextCommand "wait" ⟨⟨1,0⟩, ⟨2,0⟩, ⟨3,0⟩, ⟨4,0⟩⟩ =
      some (true, ⟨⟨1,0⟩, ⟨2,0⟩, ⟨3,0⟩, ⟨4,0⟩⟩, 0) :=
  marlin_wait_treated_as_ack "wait" ⟨⟨1,0⟩, ⟨2,0⟩, ⟨3,0⟩, ⟨4,0⟩⟩
    (by decide) (by decide) (by decide)

/-- Claim C6 (counterexample): for the command `G28` the dialect's
translate step does not produce the spec's on-wire form (native bytes plus
one newline terminator): `translate` appends nothing. -/
theorem marlin_translate_ne_spec_encode :
    translate "G28" ≠ encodeSpecForm "G28" := by decide

/-- Claim C6 (amended): `translate` produces exactly the line's native byte
encoding and appends no newline terminator — the terminator is not added by
the dialect's encode step. -/
theorem marlin_translate_no_terminator (command : String) :
    translate command = toLocal8Bit command ∧
    (translate command).count '\n' = command.toList.count '\n' :=
  ⟨rfl, rfl⟩

/-- Claim C7: immediately after `emergencyStop` the queue holds exactly
`M112` (whatever it held before), the session stops accepting commands (a
subsequent push leaves the queue unchanged), nothing new has been written
at that instant, and along every continuation of the run either nothing
more is ever written or the very next line written is `M112`. -/
theorem sched_emergency_m112_next_write :
    (∀ s : SchedState,
        (schedStep s SchedEvent.emergency).queue = ["M112"] ∧
        (schedStep s SchedEvent.emergency).accepting = false ∧
        (schedStep s SchedEvent.emergency).written = s.written) ∧
    (∀ (s : SchedState) (c : String),
        (schedStep (schedStep s SchedEvent.emergency) (SchedEvent.push c)).queue =
          ["M112"]) ∧
    (∀ (s : SchedState) (evs : List SchedEvent),
        (schedRun (schedStep s SchedEvent.emergency) evs).written = s.written ∨
        (schedRun (schedStep s SchedEvent.emergency) evs).written[s.written.length]? =
          some "M112") := by
  refine ⟨fun s => ⟨rfl, rfl, rfl⟩, fun s c => by simp [schedStep], fun s evs => ?_⟩
  have h0 : m112Pending s.written (schedStep s SchedEvent.emergency) :=
    Or.inl ⟨rfl, rfl, rfl⟩
  cases m112Pending_run evs h0 with
  | inl h => exact Or.inl h.1
  | inr h => exact Or.inr h

/-- Claim C8: temperature parsing is idempotent — when `extractTemp`
accepts a reply and produces the status `r`, parsing the same reply again
from `r` produces `r` again, with the same single emission. -/
theorem marlin_extractTemp_idempotent (m : String) (ps r : PrinterStatus) (n : Nat)
    (h : extractTemp m ps = some (r, n)) : extractTemp m r = some (r, n) := by
  rw [extractTemp_status_irrel m r ps]
  exact h

/-- Claim C8 (witness): idempotence at the well-formed report. -/
theorem marlin_extractTemp_idempotent_w :
    extractTemp "T:185.4 /185.0 B:60.5 /60.0" ⟨⟨1854,1⟩, ⟨1850,1⟩, ⟨605,1⟩, ⟨600,1⟩⟩ =
      some (⟨⟨1854,1⟩, ⟨1850,1⟩, ⟨605,1⟩, ⟨600,1⟩⟩, 1) :=
  marlin_extractTemp_idempotent "T:185.4 /185.0 B:60.5 /60.0"
    ⟨⟨0,0⟩, ⟨0,0⟩, ⟨0,0⟩, ⟨0,0⟩⟩ ⟨⟨1854,1⟩, ⟨1850,1⟩, ⟨605,1⟩, ⟨600,1⟩⟩ 1 (by decide)

/-- Claim C9 (counterexample): the reply `B:60.5` contains the token `B:`
but triggers no `printerStatusChanged` emission at all: its classification
aborts on the out-of-bounds field access, so no event is emitted. -/
theorem marlin_bed_token_short_no_emit :
    qcontains "B:60.5" bedTempStr = true ∧
    validateCommand "B:60.5" ⟨⟨0,0⟩, ⟨0,0⟩, ⟨0,0⟩, ⟨0,0⟩⟩ = none := by decide

/-- Claim C9 (amended): every reply containing `T:` or `B:` whose
whitespace split has at least four fields triggers exactly one
`printerStatusChanged` emission, also when the parsed values all equal the
stored ones — the emission count is 1 for every incoming status. -/
theorem marlin_temp_line_single_emit (m : String) (ps : PrinterStatus)
    (h : qcontains m extruderTempStr = true ∨ qcontains m bedTempStr = true)
    (hlen : 4 ≤ (qsplit m).length) :
    ∃ r, validateCommand m ps = some (false, r, 1) := by
  have hcond : (qcontains m extruderTempStr || qcontains m bedTempStr) = true := by
    cases h with
    | inl h => rw [h]; rfl
    | inr h => rw [h, Bool.or_true]
  have h0 := List.getElem?_eq_getElem (l := qsplit m) (n := 0) (by omega)
  have h1 := List.getElem?_eq_getElem (l := qsplit m) (n := 1) (by omega)
  have h2 := List.getElem?_eq_getElem (l := qsplit m) (n := 2) (by omega)
  have h3 := List.getElem?_eq_getElem (l := qsplit m) (n := 3) (by omega)
  unfold validateCommand extractTemp
  rw [hcond, h0, h1, h2, h3]
  exact ⟨_, rfl⟩

/-- Claim C9 (witness): a report whose values already equal the stored
status still emits exactly once. -/
theorem marlin_temp_line_single_emit_w :
    ∃ r, validateCommand "T:1 /2 B:3 /4" ⟨⟨1,0⟩, ⟨2,0⟩, ⟨3,0⟩, ⟨4,0⟩⟩ =
      some (false, r, 1) :=
  marlin_temp_line_single_emit "T:1 /2 B:3 /4" ⟨⟨1,0⟩, ⟨2,0⟩, ⟨3,0⟩, ⟨4,0⟩⟩
    (Or.inl (by decide)) (by decide)

/-- Claim C10: the extracted temperatures depend only on the first four
whitespace-separated tokens of the reply — two replies whose splits agree
on the first four fields give identical parser results for every incoming
status, so anything after the fourth token is ignored. -/
theorem marlin_extractTemp_first_four_tokens (s1 s2 : String) (ps : PrinterStatus)
    (h : (qsplit s1).take 4 = (qsplit s2).take 4) :
    extractTemp s1 ps = extractTemp s2 ps := by
  have e : ∀ i, i < 4 → (qsplit s1)[i]? = (qsplit s2)[i]? := by
    intro i hi
    rw [← List.getElem?_take_of_lt (l := qsplit s1) hi, h,
        List.getElem?_take_of_lt hi]
  unfold extractTemp
  rw [e 0 (by omega), e 1 (by omega), e 2 (by omega), e 3 (by omega)]

/-- Claim C10 (witness): trailing content after the fourth token does not
change the parse. -/
theorem marlin_extractTemp_first_four_tokens_w :
    extractTemp "T:1 /2 B:3 /4" ⟨⟨0,0⟩, ⟨0,0⟩, ⟨0,0⟩, ⟨0,0⟩⟩ =
      extractTemp "T:1 /2 B:3 /4 X:77 junk" ⟨⟨0,0⟩, ⟨0,0⟩, ⟨0,0⟩, ⟨0,0⟩⟩ :=
  marlin_extractTemp_first_four_tokens "T:1 /2 B:3 /4" "T:1 /2 B:3 /4 X:77 junk"
    ⟨⟨0,0⟩, ⟨0,0⟩, ⟨0,0⟩, ⟨0,0⟩⟩ (by decide)

end AtCoreSpec

